import Mathlib

/-!
Verification of the tfplan-commenter core: classification of Terraform
resource changes, attribute diffing, replace/delete reasons, value
formatting and single-plan Markdown rendering, shallowly embedded from
`main.go`.

Modelling conventions:
* Decoded JSON values (`interface{}` holding `nil`, `bool`, `float64`,
  `string`, `[]interface{}` or `map[string]interface{}`) become the sum
  type `Value`.  Numbers are modelled as integers: Go's `%v` rendering of
  an integral `float64` agrees with `Int` rendering, and no analysed
  behaviour depends on fractional formatting.
* A Go `map[string]interface{}` is represented by its association list
  `List (String × Value)`; JSON decoding yields distinct keys and lookup
  reads the first binding.  Go map iteration order is unspecified, so the
  embedding takes the order in which keys are iterated from the order of
  the association lists (before-keys first, then fresh after-keys);
  properties that must hold for every iteration order are refuted by
  exhibiting an explicit order that Go is free to choose.
* Go's `fmt.Sprintf("%v", x)` on decoded JSON becomes `goString`; `fmt`
  prints map keys in sorted order, which the embedding mirrors.
-/

namespace Tfplan

/-- Untyped attribute value, mirroring the decoded JSON `interface{}`
values stored in `Change.Before` / `Change.After` in `main.go`. -/
inductive Value where
  | null : Value
  | bool : Bool → Value
  | num : Int → Value
  | str : String → Value
  | arr : List Value → Value
  | obj : List (String × Value) → Value

/-- Ordering on rendered map entries by key, used to mirror `fmt`'s
sorted printing of Go map keys. -/
def pairLe (a b : String × String) : Prop := a.1 ≤ b.1

instance : DecidableRel pairLe := fun a b => inferInstanceAs (Decidable (a.1 ≤ b.1))

/-- Rendered `key:value` entries of a map, in sorted key order, as printed
by Go's `fmt` package. -/
def sortedFieldStrings (pairs : List (String × String)) : List String :=
  (List.insertionSort pairLe pairs).map (fun p => p.1 ++ ":" ++ p.2)

mutual

/-- Go's `fmt.Sprintf("%v", x)` on a decoded JSON value: `nil` prints
`<nil>`, strings print bare, slices print `[e1 e2 ...]`, maps print
`map[k1:v1 k2:v2]` with keys sorted. -/
def goString : Value → String
  | Value.null => "<nil>"
  | Value.bool b => if b then "true" else "false"
  | Value.num n => toString n
  | Value.str s => s
  | Value.arr xs => "[" ++ String.intercalate (" ") (goStringList xs) ++ "]"
  | Value.obj fs => "map[" ++ String.intercalate (" ") (sortedFieldStrings (goFields fs)) ++ "]"

/-- Renders each element of a slice with `goString`. -/
def goStringList : List Value → List String
  | [] => []
  | v :: vs => goString v :: goStringList vs

/-- Renders each map value with `goString`, keeping its key. -/
def goFields : List (String × Value) → List (String × String)
  | [] => []
  | (k, v) :: fs => (k, goString v) :: goFields fs

end

/-- The `change` object of a resource change (`Change` in `main.go`). -/
structure Change where
  actions : List String
  before : Value
  after : Value
  afterUnknown : Value := Value.null

/-- One entry of `resource_changes` (`ResourceChange` in `main.go`).
Fields that the analysed logic never reads are given defaults. -/
structure ResourceChange where
  address : String
  moduleAddress : String := ""
  mode : String := ""
  type : String := ""
  name : String := ""
  providerName : String := ""
  change : Change

/-- A single attribute-level difference (`AttributeChange` in `main.go`). -/
structure AttributeChange where
  attr : String
  before : Value
  after : Value
  isNew : Bool := false
  isRemoved : Bool := false

/-- A classified resource (`ResourceDetail` in `main.go`). -/
structure ResourceDetail where
  address : String
  changes : List AttributeChange
  forceReason : String := ""

/-- The four classification buckets (`ResourceSummary` in `main.go`). -/
structure ResourceSummary where
  create : List ResourceDetail
  update : List ResourceDetail
  delete : List ResourceDetail
  replace : List ResourceDetail

/-- A decoded plan (`TerraformPlan` in `main.go`); only the fields the
analysed logic reads. -/
structure TerraformPlan where
  formatVersion : String := ""
  terraformVersion : String
  resourceChanges : List ResourceChange

/-- The type assertion `x.(map[string]interface{})` from `main.go`. -/
def asObj : Value → Option (List (String × Value))
  | Value.obj fs => some fs
  | _ => none

/-- Go map read `m[key]` (value plus presence) on the association-list
representation; decoded JSON maps have distinct keys, and lookup reads
the first binding. -/
def lookupKey (fields : List (String × Value)) (key : String) : Option Value :=
  match fields with
  | [] => none
  | (k, v) :: rest => if k == key then some v else lookupKey rest key

/-- The keys of a map representation, in iteration order. -/
def keysOf (fields : List (String × Value)) : List String :=
  fields.map Prod.fst

/-- First-occurrence deduplication, mirroring that `allKeys` in
`analyzeAttributeChanges` is a set: each key is iterated once. -/
def dedupKeys : List String → List String
  | [] => []
  | k :: ks => k :: List.filter (fun x => x != k) (dedupKeys ks)

/-- The union `allKeys` of before/after keys built in
`analyzeAttributeChanges`, in the embedding's iteration order. -/
def allKeysOf (beforeMap afterMap : List (String × Value)) : List String :=
  dedupKeys (keysOf beforeMap ++ keysOf afterMap)

/-- `shouldSkipAttribute` from `main.go`: system attributes hidden from
reports. -/
def shouldSkipAttribute (key : String) : Bool :=
  List.any (["id", "arn", "tags_all", "timeouts"]) (fun skip => key == skip)

/-- `deepEqual` from `main.go`: equality of the `%v` renderings. -/
def deepEqual (a b : Value) : Bool :=
  goString a == goString b

/-- The body of the per-key loop of `analyzeAttributeChanges` in
`main.go`: the record (if any) emitted for one key of the union. -/
def attrRecordFor (beforeMap afterMap : List (String × Value)) (key : String) :
    Option AttributeChange :=
  if shouldSkipAttribute key then none
  else
    match lookupKey beforeMap key, lookupKey afterMap key with
    | none, some afterVal =>
        some { attr := key, before := Value.null, after := afterVal, isNew := true }
    | some beforeVal, none =>
        some { attr := key, before := beforeVal, after := Value.null, isRemoved := true }
    | some beforeVal, some afterVal =>
        if deepEqual beforeVal afterVal then none
        else some { attr := key, before := beforeVal, after := afterVal }
    | none, none => none

/-- `analyzeAttributeChanges` from `main.go`: empty unless both sides are
maps, else one record per eligible key of the union. -/
def analyzeAttributeChanges (change : Change) : List AttributeChange :=
  match asObj change.before, asObj change.after with
  | some beforeMap, some afterMap =>
      List.filterMap (attrRecordFor beforeMap afterMap) (allKeysOf beforeMap afterMap)
  | _, _ => []

/-- The `forceReplaceAttrs` priority list of `determineReplaceReason`. -/
def forceReplaceAttrs : List String :=
  ["name", "family", "engine", "vpc_id", "availability_zone"]

/-- The double loop of `determineReplaceReason`: the first diff entry (in
diff-list order) whose attribute is one of `forceReplaceAttrs`. -/
def findForceChange : List AttributeChange → Option AttributeChange
  | [] => none
  | ac :: rest =>
      if List.any forceReplaceAttrs (fun forceAttr => ac.attr == forceAttr) then some ac
      else findForceChange rest

/-- `determineReplaceReason` from `main.go`. -/
def determineReplaceReason (change : Change) : String :=
  let changes := analyzeAttributeChanges change
  match findForceChange changes with
  | some ac =>
      "Attribute \x27" ++ ac.attr ++ "\x27 changed from \x27" ++ goString ac.before ++
        "\x27 to \x27" ++ goString ac.after ++ "\x27 (forces replacement)"
  | none =>
      if changes.length > 0 then "Multiple attribute changes require replacement"
      else "Resource configuration requires replacement"

/-- The `keyAttrs` identifier list of `determineDeleteReason`. -/
def keyAttrs : List String :=
  ["name", "id", "family", "engine"]

/-- The identifier-collecting loop of `determineDeleteReason`: each
`keyAttrs` entry present in the map with a non-nil value, rendered as
`key: value`. -/
def deleteIdentifiers (beforeMap : List (String × Value)) : List String :=
  List.filterMap
    (fun attr =>
      match lookupKey beforeMap attr with
      | some Value.null => none
      | some v => some (attr ++ ": " ++ goString v)
      | none => none)
    keyAttrs

/-- `determineDeleteReason` from `main.go`. -/
def determineDeleteReason (change : Change) : String :=
  match asObj change.before with
  | none => "Resource marked for deletion"
  | some beforeMap =>
      let identifiers := deleteIdentifiers beforeMap
      if identifiers.length > 0 then
        "Resource with " ++ String.intercalate (", ") identifiers
      else "Resource marked for deletion"

/-- `containsAction` from `main.go`. -/
def containsAction (actions : List String) (action : String) : Bool :=
  List.any actions (fun a => a == action)

/-- Ordering of classified resources by address, the comparison used by
`sortResourceDetails`. -/
def detailLe (a b : ResourceDetail) : Prop := a.address ≤ b.address

instance : DecidableRel detailLe := fun a b => inferInstanceAs (Decidable (a.address ≤ b.address))

instance : IsTotal ResourceDetail detailLe := ⟨fun a b => le_total a.address b.address⟩

instance : IsTrans ResourceDetail detailLe := ⟨fun _ _ _ h h2 => le_trans h h2⟩

/-- `sortResourceDetails` from `main.go`: sort a bucket by address
ascending. -/
def sortResourceDetails (resources : List ResourceDetail) : List ResourceDetail :=
  List.insertionSort detailLe resources

/-- The loop body of `analyzeResourceChanges`: route one resource change
into the summary according to its action list. -/
def classifyStep (summary : ResourceSummary) (change : ResourceChange) : ResourceSummary :=
  let detail : ResourceDetail :=
    { address := change.address, changes := analyzeAttributeChanges change.change,
      forceReason := "" }
  if containsAction change.change.actions ("create") &&
      containsAction change.change.actions ("delete") then
    { summary with
        replace := summary.replace ++
          [{ detail with forceReason := determineReplaceReason change.change }] }
  else if containsAction change.change.actions ("create") then
    { summary with create := summary.create ++ [detail] }
  else if containsAction change.change.actions ("update") then
    { summary with update := summary.update ++ [detail] }
  else if containsAction change.change.actions ("delete") then
    { summary with
        delete := summary.delete ++
          [{ detail with forceReason := determineDeleteReason change.change }] }
  else summary

/-- `analyzeResourceChanges` from `main.go`: classify every change, then
sort each bucket by address. -/
def analyzeResourceChanges (changes : List ResourceChange) : ResourceSummary :=
  let s := changes.foldl classifyStep
    { create := [], update := [], delete := [], replace := [] }
  { create := sortResourceDetails s.create
    update := sortResourceDetails s.update
    delete := sortResourceDetails s.delete
    replace := sortResourceDetails s.replace }

/-- `formatAttributeValue` from `main.go`. -/
def formatAttributeValue (val : Value) : String :=
  match val with
  | Value.null => "(null)"
  | Value.str s => if s == "" then "(empty)" else "\"" ++ s ++ "\""
  | Value.arr elems =>
      if elems.length == 0 then "[]" else "[" ++ toString elems.length ++ " items]"
  | Value.obj fields =>
      if fields.length == 0 then "\x7b\x7d"
      else "\x7b" ++ toString fields.length ++ " keys\x7d"
  | v => goString v

/-- `formatResourceList` from `main.go`: a comma-joined, truncated list of
bucket addresses for the summary table. -/
def formatResourceList (resources : List ResourceDetail) (maxDisplay : Nat) : String :=
  if resources.length == 0 then ""
  else
    let resourceNames := resources.map (fun r => r.address)
    if resourceNames.length ≤ maxDisplay then String.intercalate (", ") resourceNames
    else
      String.intercalate (", ") (resourceNames.take maxDisplay) ++ ", ... (+" ++
        toString (resourceNames.length - maxDisplay) ++ " more)"

/-- One attribute bullet of the Update/Replace detail sections of
`generateMarkdownComment`.  The non-ASCII characters are exactly the
(byte-for-byte) characters of the string literals in `main.go`. -/
def attrChangeLine (change : AttributeChange) : String :=
  if change.isNew then
    "- **" ++ change.attr ++ "**: " ++ formatAttributeValue change.after ++ " *(new)*\n"
  else if change.isRemoved then
    "- **" ++ change.attr ++ "**: " ++ formatAttributeValue change.before ++ " *(removed)*\n"
  else
    "- **" ++ change.attr ++ "**: " ++ formatAttributeValue change.before ++
      " \u00E2\u2020\u2019 " ++ formatAttributeValue change.after ++ "\n"

/-- The conditional rows of the single-plan summary table of
`generateMarkdownComment`, in the source's fixed order Create, Update,
Replace, Delete. -/
def summaryTableRows (summary : ResourceSummary) : String :=
  (if summary.create.length > 0 then
      "| \u00F0\u0178\u0178\u00A2 **Create** | " ++ toString summary.create.length ++ " | " ++
        formatResourceList summary.create 3 ++ " |\n"
    else "") ++
  (if summary.update.length > 0 then
      "| \u00F0\u0178\u0178\u00A1 **Update** | " ++ toString summary.update.length ++ " | " ++
        formatResourceList summary.update 3 ++ " |\n"
    else "") ++
  (if summary.replace.length > 0 then
      "| \u00F0\u0178\u201D\u201E **Replace** | " ++ toString summary.replace.length ++ " | " ++
        formatResourceList summary.replace 3 ++ " |\n"
    else "") ++
  (if summary.delete.length > 0 then
      "| \u00F0\u0178\u201D\u00B4 **Delete** | " ++ toString summary.delete.length ++ " | " ++
        formatResourceList summary.delete 3 ++ " |\n"
    else "")

/-- The Create detail section of `generateMarkdownComment`. -/
def createdSection (create : List ResourceDetail) : String :=
  if create.length > 0 then
    "### \u00F0\u0178\u0178\u00A2 Resources to be Created\n\n" ++
      String.join (create.map (fun resource => "- `" ++ resource.address ++ "`\n")) ++ "\n"
  else ""

/-- One resource block of the Update detail section. -/
def updatedResourceBlock (resource : ResourceDetail) : String :=
  "#### `" ++ resource.address ++ "`\n\n" ++
    (if resource.changes.length > 0 then
        "**Attributes being modified:**\n\n" ++ String.join (resource.changes.map attrChangeLine)
      else "*No specific attribute changes detected*\n") ++ "\n"

/-- The Update detail section of `generateMarkdownComment`. -/
def updatedSection (upd : List ResourceDetail) : String :=
  if upd.length > 0 then
    "### \u00F0\u0178\u0178\u00A1 Resources to be Updated\n\n" ++
      String.join (upd.map updatedResourceBlock)
  else ""

/-- One resource block of the Replace detail section. -/
def replacedResourceBlock (resource : ResourceDetail) : String :=
  "#### `" ++ resource.address ++ "`\n\n" ++
    (if resource.forceReason != "" then
        "**Reason for replacement:** " ++ resource.forceReason ++ "\n\n"
      else "") ++
    (if resource.changes.length > 0 then
        "**Attribute changes:**\n\n" ++ String.join (resource.changes.map attrChangeLine)
      else "") ++ "\n"

/-- The Replace detail section of `generateMarkdownComment`. -/
def replacedSection (repl : List ResourceDetail) : String :=
  if repl.length > 0 then
    "### \u00F0\u0178\u201D\u201E Resources to be Replaced\n\n" ++
      String.join (repl.map replacedResourceBlock)
  else ""

/-- One resource block of the Delete detail section. -/
def deletedResourceBlock (resource : ResourceDetail) : String :=
  "#### `" ++ resource.address ++ "`\n\n" ++
    (if resource.forceReason != "" then
        "**Resource details:** " ++ resource.forceReason ++ "\n\n"
      else "")

/-- The Delete detail section of `generateMarkdownComment` (no trailing
blank line after the loop, matching the source). -/
def deletedSection (del : List ResourceDetail) : String :=
  if del.length > 0 then
    "### \u00F0\u0178\u201D\u00B4 Resources to be Deleted\n\n" ++
      String.join (del.map deletedResourceBlock)
  else ""

/-- `generateMarkdownComment` from `main.go`: the single-plan Markdown
report. -/
def generateMarkdownComment (plan : TerraformPlan) : String :=
  let summary := analyzeResourceChanges plan.resourceChanges
  let totalChanges :=
    summary.create.length + summary.update.length + summary.delete.length +
      summary.replace.length
  if totalChanges == 0 then
    "## \u00F0\u0178\u201C\u2039 Terraform Plan Summary\n\n" ++
      "\u00E2\u0153\u2026 **No changes detected** - Infrastructure is up to date!\n\n"
  else
    "## \u00F0\u0178\u201C\u2039 Terraform Plan Summary\n\n" ++
      "**Total resources affected:** " ++ toString totalChanges ++ "\n\n" ++
      "| Action | Count | Resources |\n" ++
      "|--------|-------|----------|\n" ++
      summaryTableRows summary ++ "\n" ++
      createdSection summary.create ++
      updatedSection summary.update ++
      replacedSection summary.replace ++
      deletedSection summary.delete ++
      "---\n" ++
      "*Generated from Terraform " ++ plan.terraformVersion ++ " plan*\n"

/-! Helper lemmas shared by the claim theorems. -/

theorem mem_dedupKeys {x : String} {l : List String} : x ∈ dedupKeys l ↔ x ∈ l := by
  induction l with
  | nil => exact Iff.rfl
  | cons k ks ih =>
    simp only [dedupKeys, List.mem_cons, List.mem_filter, ih, bne_iff_ne]
    by_cases hx : x = k
    · simp [hx]
    · simp [hx]

theorem lookupKey_none_iff {key : String} :
    ∀ {fields : List (String × Value)}, lookupKey fields key = none ↔ key ∉ keysOf fields
  | [] => by simp [lookupKey, keysOf]
  | (k, v) :: rest => by
    by_cases hk : k = key
    · subst hk
      simp [lookupKey, keysOf]
    · have hb : (k == key) = false := beq_eq_false_iff_ne.mpr hk
      simp only [lookupKey, hb, Bool.false_eq_true, if_false, keysOf, List.map_cons,
        List.mem_cons, not_or]
      rw [lookupKey_none_iff]
      simp [keysOf, Ne.symm hk]

theorem lookupKey_some_mem {key : String} {v : Value} {fields : List (String × Value)}
    (h : lookupKey fields key = some v) : key ∈ keysOf fields := by
  by_contra hmem
  rw [← lookupKey_none_iff] at hmem
  rw [hmem] at h
  exact Option.noConfusion h

theorem attrRecordFor_attr {beforeMap afterMap : List (String × Value)} {key : String}
    {ac : AttributeChange} (h : attrRecordFor beforeMap afterMap key = some ac) :
    ac.attr = key ∧ shouldSkipAttribute key = false ∧
      (ac.isNew = false ∨ ac.isRemoved = false) := by
  unfold attrRecordFor at h
  split at h
  · exact Option.noConfusion h
  · rename_i hskip
    have hskip2 : shouldSkipAttribute key = false := Bool.eq_false_iff.mpr hskip
    split at h
    · cases h
      exact ⟨rfl, hskip2, Or.inr rfl⟩
    · cases h
      exact ⟨rfl, hskip2, Or.inl rfl⟩
    · split at h
      · exact Option.noConfusion h
      · cases h
        exact ⟨rfl, hskip2, Or.inl rfl⟩
    · exact Option.noConfusion h

theorem mem_analyzeAttributeChanges_skip {change : Change} {ac : AttributeChange}
    (h : ac ∈ analyzeAttributeChanges change) : shouldSkipAttribute ac.attr = false := by
  unfold analyzeAttributeChanges at h
  rcases hb : asObj change.before with _ | bm <;> rw [hb] at h
  · simp at h
  · rcases ha : asObj change.after with _ | am <;> rw [ha] at h
    · simp at h
    · rcases List.mem_filterMap.mp h with ⟨key, _, hrec⟩
      rcases attrRecordFor_attr hrec with ⟨hattr, hskip, _⟩
      rw [hattr]
      exact hskip

theorem findForceChange_eq_none {l : List AttributeChange}
    (h : ∀ x ∈ l, List.any forceReplaceAttrs (fun f => x.attr == f) = false) :
    findForceChange l = none := by
  induction l with
  | nil => rfl
  | cons ac rest ih =>
    unfold findForceChange
    rw [h ac (List.mem_cons_self ac rest), if_neg (by simp)]
    exact ih (fun x hx => h x (List.mem_cons_of_mem ac hx))

theorem findForceChange_first {pre post : List AttributeChange} {ac : AttributeChange}
    (hpre : ∀ x ∈ pre, List.any forceReplaceAttrs (fun f => x.attr == f) = false)
    (hac : List.any forceReplaceAttrs (fun f => ac.attr == f) = true) :
    findForceChange (pre ++ ac :: post) = some ac := by
  induction pre with
  | nil =>
    rw [List.nil_append]
    simp only [findForceChange, hac, if_true]
  | cons x rest ih =>
    have hx := hpre x (List.mem_cons_self x rest)
    rw [List.cons_append]
    simp only [findForceChange, hx, Bool.false_eq_true, if_false]
    exact ih (fun y hy => hpre y (List.mem_cons_of_mem x hy))

theorem determineReplaceReason_of_empty {change : Change}
    (h : analyzeAttributeChanges change = []) :
    determineReplaceReason change = "Resource configuration requires replacement" := by
  unfold determineReplaceReason
  rw [h]
  rfl

theorem append_ne_empty_left (s t : String) (hs : s.length ≠ 0) : s ++ t ≠ "" := by
  intro h
  have hd := congrArg String.length h
  rw [String.length_append] at hd
  simp at hd
  exact hs hd.1

/-- C1: classification buckets a resource change by its action set alone:
create+delete → Replace (with the replacement reason), else create →
Create, else update → Update, else delete → Delete (with the deletion
reason), else no bucket; at most one bucket receives the change, and the
outcome depends only on which action strings are present, not on their
order or multiplicity. -/
theorem c1_classification_by_action_set :
    (∀ c : ResourceChange,
      analyzeResourceChanges [c] =
        if containsAction c.change.actions ("create") &&
            containsAction c.change.actions ("delete") then
          { create := [], update := [], delete := [],
            replace := [{ address := c.address, changes := analyzeAttributeChanges c.change,
                          forceReason := determineReplaceReason c.change }] }
        else if containsAction c.change.actions ("create") then
          { create := [{ address := c.address, changes := analyzeAttributeChanges c.change,
                         forceReason := "" }],
            update := [], delete := [], replace := [] }
        else if containsAction c.change.actions ("update") then
          { create := [],
            update := [{ address := c.address, changes := analyzeAttributeChanges c.change,
                         forceReason := "" }],
            delete := [], replace := [] }
        else if containsAction c.change.actions ("delete") then
          { create := [], update := [],
            delete := [{ address := c.address, changes := analyzeAttributeChanges c.change,
                         forceReason := determineDeleteReason c.change }],
            replace := [] }
        else { create := [], update := [], delete := [], replace := [] }) ∧
    (∀ (acts acts2 : List String) (addr : String) (b a u : Value),
      (∀ s, containsAction acts s = containsAction acts2 s) →
      analyzeResourceChanges
          [{ address := addr,
             change := { actions := acts, before := b, after := a, afterUnknown := u } }] =
        analyzeResourceChanges
          [{ address := addr,
             change := { actions := acts2, before := b, after := a, afterUnknown := u } }]) := by
  constructor
  · intro c
    unfold analyzeResourceChanges
    simp only [List.foldl]
    unfold classifyStep
    split_ifs with h1 h2 h3 h4 <;> simp [sortResourceDetails]
  · intro acts acts2 addr b a u h
    simp only [analyzeResourceChanges, List.foldl, classifyStep, h]
    rfl

/-- Witness for C1: a `create`+`delete` change is classified identically
whatever the order of the two actions. -/
theorem c1_classification_by_action_set_witness :
    analyzeResourceChanges
        [{ address := "aws_db_instance.main",
           change := { actions := ["create", "delete"],
                       before := Value.obj [("engine", Value.str ("mysql"))],
                       after := Value.obj [("engine", Value.str ("postgres"))],
                       afterUnknown := Value.null } }] =
      analyzeResourceChanges
        [{ address := "aws_db_instance.main",
           change := { actions := ["delete", "create"],
                       before := Value.obj [("engine", Value.str ("mysql"))],
                       after := Value.obj [("engine", Value.str ("postgres"))],
                       afterUnknown := Value.null } }] :=
  c1_classification_by_action_set.2 (["create", "delete"]) (["delete", "create"])
    ("aws_db_instance.main") (Value.obj [("engine", Value.str ("mysql"))])
    (Value.obj [("engine", Value.str ("postgres"))]) Value.null
    (fun s => by
      cases h1 : ("create" == s) <;> cases h2 : ("delete" == s) <;>
        simp [containsAction, h1, h2])

/-- C3: the attribute differ returns an empty list when either side is
not a mapping; when both are mappings, each non-skipped key of the union
yields an `is_new` record (with null before) if only in `after`, an
`is_removed` record (with null after) if only in `before`, a plain record
exactly when both renderings differ and no record when they agree; and no
emitted record has both flags set. -/
theorem c3_attribute_differ_characterisation :
    (∀ change : Change,
      (asObj change.before = none ∨ asObj change.after = none) →
      analyzeAttributeChanges change = []) ∧
    (∀ (change : Change) (bm am : List (String × Value)),
      asObj change.before = some bm → asObj change.after = some am →
      ∀ key, shouldSkipAttribute key = false →
        ((lookupKey bm key = none → ∀ av, lookupKey am key = some av →
            ({ attr := key, before := Value.null, after := av, isNew := true,
               isRemoved := false } : AttributeChange) ∈ analyzeAttributeChanges change) ∧
         (∀ bv, lookupKey bm key = some bv → lookupKey am key = none →
            ({ attr := key, before := bv, after := Value.null, isNew := false,
               isRemoved := true } : AttributeChange) ∈ analyzeAttributeChanges change) ∧
         (∀ bv av, lookupKey bm key = some bv → lookupKey am key = some av →
            (deepEqual bv av = false →
              ({ attr := key, before := bv, after := av, isNew := false,
                 isRemoved := false } : AttributeChange) ∈ analyzeAttributeChanges change) ∧
            (deepEqual bv av = true →
              ∀ r ∈ analyzeAttributeChanges change, r.attr ≠ key)))) ∧
    (∀ (change : Change) (r : AttributeChange), r ∈ analyzeAttributeChanges change →
      ¬(r.isNew = true ∧ r.isRemoved = true)) := by
  refine ⟨?_, ?_, ?_⟩
  · intro change h
    unfold analyzeAttributeChanges
    rcases hb : asObj change.before with _ | bm <;>
      rcases ha : asObj change.after with _ | am <;> simp only []
    rcases h with h | h
    · rw [hb] at h
      exact Option.noConfusion h
    · rw [ha] at h
      exact Option.noConfusion h
  · intro change bm am hb ha key hskip
    unfold analyzeAttributeChanges
    simp only [hb, ha]
    have hmemKeys : ∀ {v : Value},
        lookupKey bm key = some v ∨ lookupKey am key = some v → key ∈ allKeysOf bm am := by
      intro v hv
      apply mem_dedupKeys.mpr
      apply List.mem_append.mpr
      rcases hv with hv | hv
      · exact Or.inl (lookupKey_some_mem hv)
      · exact Or.inr (lookupKey_some_mem hv)
    refine ⟨?_, ?_, ?_⟩
    · intro hbn av han
      apply List.mem_filterMap.mpr
      refine ⟨key, hmemKeys (Or.inr han), ?_⟩
      unfold attrRecordFor
      rw [if_neg (by simp [hskip]), hbn, han]
    · intro bv hbv han
      apply List.mem_filterMap.mpr
      refine ⟨key, hmemKeys (Or.inl hbv), ?_⟩
      unfold attrRecordFor
      rw [if_neg (by simp [hskip]), hbv, han]
    · intro bv av hbv hav
      constructor
      · intro hne
        apply List.mem_filterMap.mpr
        refine ⟨key, hmemKeys (Or.inl hbv), ?_⟩
        unfold attrRecordFor
        rw [if_neg (by simp [hskip]), hbv, hav]
        simp only [hne, Bool.false_eq_true, if_false]
      · intro heq r hr hcontra
        rcases List.mem_filterMap.mp hr with ⟨k2, _, hrec⟩
        have hattr := (attrRecordFor_attr hrec).1
        have hk2 : k2 = key := hattr.symm.trans hcontra
        subst hk2
        unfold attrRecordFor at hrec
        rw [if_neg (by simp [hskip]), hbv, hav] at hrec
        simp only [heq, if_true] at hrec
        exact Option.noConfusion hrec
  · intro change r hr
    unfold analyzeAttributeChanges at hr
    rcases hb : asObj change.before with _ | bm <;> rw [hb] at hr
    · simp at hr
    · rcases ha : asObj change.after with _ | am <;> rw [ha] at hr
      · simp at hr
      · rcases List.mem_filterMap.mp hr with ⟨k2, _, hrec⟩
        rcases (attrRecordFor_attr hrec).2.2 with hflag | hflag
        · exact fun hc => Bool.noConfusion (hc.1.symm.trans hflag)
        · exact fun hc => Bool.noConfusion (hc.2.symm.trans hflag)

/-- Change used by the C3 witness: an attribute appearing only in
`after`. -/
def c3WitnessChange : Change :=
  { actions := ["update"], before := Value.obj [],
    after := Value.obj [("foo", Value.str ("b"))] }

/-- Witness for C3: the key `foo`, present only in `after`, yields an
`is_new` record with null before. -/
theorem c3_attribute_differ_characterisation_witness :
    ({ attr := "foo", before := Value.null, after := Value.str ("b"), isNew := true,
       isRemoved := false } : AttributeChange) ∈ analyzeAttributeChanges c3WitnessChange :=
  ((c3_attribute_differ_characterisation.2.1 c3WitnessChange []
      ([("foo", Value.str ("b"))]) rfl rfl ("foo") rfl).1) rfl (Value.str ("b")) rfl

/-- Every detail held in a bucket of the classification fold either was
already in the accumulator or carries the attribute diff of one of the
processed changes. -/
theorem classify_foldl_mem :
    ∀ (changes : List ResourceChange) (acc : ResourceSummary) (d : ResourceDetail),
      (d ∈ (List.foldl classifyStep acc changes).create ∨
       d ∈ (List.foldl classifyStep acc changes).update ∨
       d ∈ (List.foldl classifyStep acc changes).delete ∨
       d ∈ (List.foldl classifyStep acc changes).replace) →
      (d ∈ acc.create ∨ d ∈ acc.update ∨ d ∈ acc.delete ∨ d ∈ acc.replace) ∨
        ∃ c, c ∈ changes ∧ d.changes = analyzeAttributeChanges c.change
  | [], acc, d => fun h => Or.inl h
  | c :: rest, acc, d => by
    intro h
    rcases classify_foldl_mem rest (classifyStep acc c) d h with hacc | ⟨c2, hc2, hd⟩
    · simp only [classifyStep] at hacc
      split_ifs at hacc
      · rcases hacc with h | h | h | h
        · exact Or.inl (Or.inl h)
        · exact Or.inl (Or.inr (Or.inl h))
        · exact Or.inl (Or.inr (Or.inr (Or.inl h)))
        · rcases List.mem_append.mp h with h | h
          · exact Or.inl (Or.inr (Or.inr (Or.inr h)))
          · exact Or.inr ⟨c, List.mem_cons_self c rest, by rw [List.mem_singleton.mp h]⟩
      · rcases hacc with h | h | h | h
        · rcases List.mem_append.mp h with h | h
          · exact Or.inl (Or.inl h)
          · exact Or.inr ⟨c, List.mem_cons_self c rest, by rw [List.mem_singleton.mp h]⟩
        · exact Or.inl (Or.inr (Or.inl h))
        · exact Or.inl (Or.inr (Or.inr (Or.inl h)))
        · exact Or.inl (Or.inr (Or.inr (Or.inr h)))
      · rcases hacc with h | h | h | h
        · exact Or.inl (Or.inl h)
        · rcases List.mem_append.mp h with h | h
          · exact Or.inl (Or.inr (Or.inl h))
          · exact Or.inr ⟨c, List.mem_cons_self c rest, by rw [List.mem_singleton.mp h]⟩
        · exact Or.inl (Or.inr (Or.inr (Or.inl h)))
        · exact Or.inl (Or.inr (Or.inr (Or.inr h)))
      · rcases hacc with h | h | h | h
        · exact Or.inl (Or.inl h)
        · exact Or.inl (Or.inr (Or.inl h))
        · rcases List.mem_append.mp h with h | h
          · exact Or.inl (Or.inr (Or.inr (Or.inl h)))
          · exact Or.inr ⟨c, List.mem_cons_self c rest, by rw [List.mem_singleton.mp h]⟩
        · exact Or.inl (Or.inr (Or.inr (Or.inr h)))
      · exact Or.inl hacc
    · exact Or.inr ⟨c2, List.mem_cons_of_mem c hc2, hd⟩

/-- C4: no attribute change whose key lies in the skip set (`id`, `arn`,
`tags_all`, `timeouts`) ever reaches a bucket of the classified summary;
since both renderers draw their attribute bullets exclusively from these
bucket lists, no skipped key is ever rendered. -/
theorem c4_skip_attributes_never_in_buckets :
    ∀ (changes : List ResourceChange) (d : ResourceDetail),
      (d ∈ (analyzeResourceChanges changes).create ∨
       d ∈ (analyzeResourceChanges changes).update ∨
       d ∈ (analyzeResourceChanges changes).delete ∨
       d ∈ (analyzeResourceChanges changes).replace) →
      ∀ ac ∈ d.changes, shouldSkipAttribute ac.attr = false := by
  intro changes d hmem ac hac
  simp only [analyzeResourceChanges, sortResourceDetails] at hmem
  have hfold :
      d ∈ (List.foldl classifyStep
            { create := [], update := [], delete := [], replace := [] } changes).create ∨
      d ∈ (List.foldl classifyStep
            { create := [], update := [], delete := [], replace := [] } changes).update ∨
      d ∈ (List.foldl classifyStep
            { create := [], update := [], delete := [], replace := [] } changes).delete ∨
      d ∈ (List.foldl classifyStep
            { create := [], update := [], delete := [], replace := [] } changes).replace := by
    rcases hmem with h | h | h | h
    · exact Or.inl ((List.perm_insertionSort detailLe _).mem_iff.mp h)
    · exact Or.inr (Or.inl ((List.perm_insertionSort detailLe _).mem_iff.mp h))
    · exact Or.inr (Or.inr (Or.inl ((List.perm_insertionSort detailLe _).mem_iff.mp h)))
    · exact Or.inr (Or.inr (Or.inr ((List.perm_insertionSort detailLe _).mem_iff.mp h)))
  rcases classify_foldl_mem changes _ d hfold with hinit | ⟨c, _, hd⟩
  · rcases hinit with h | h | h | h <;> exact absurd h (List.not_mem_nil d)
  · rw [hd] at hac
    exact mem_analyzeAttributeChanges_skip hac

/-- Change used by the C4 witness: an `update` touching both the skipped
`id` and the visible `acl` attribute. -/
def c4WitnessChange : ResourceChange :=
  { address := "aws_s3_bucket.logs",
    change := { actions := ["update"],
                before := Value.obj [("id", Value.str ("b1")), ("acl", Value.str ("private"))],
                after := Value.obj [("id", Value.str ("b2")), ("acl", Value.str ("public"))] } }

/-- The attribute change kept by the differ in the C4 witness. -/
def c4WitnessAttr : AttributeChange :=
  { attr := "acl", before := Value.str ("private"), after := Value.str ("public") }

/-- The classified detail of the C4 witness. -/
def c4WitnessDetail : ResourceDetail :=
  { address := "aws_s3_bucket.logs", changes := [c4WitnessAttr], forceReason := "" }

/-- Witness for C4: the surviving attribute of the witness update is not
in the skip set. -/
theorem c4_skip_attributes_never_in_buckets_witness :
    shouldSkipAttribute ("acl") = false :=
  c4_skip_attributes_never_in_buckets [c4WitnessChange] c4WitnessDetail
    (Or.inr (Or.inl (List.mem_singleton_self c4WitnessDetail)))
    c4WitnessAttr (List.mem_singleton_self c4WitnessAttr)

/-- C7: after classification every bucket is sorted by address ascending
(`detailLe d e` is `d.address ≤ e.address`, so `List.Sorted detailLe`
states `bucket[i].address ≤ bucket[j].address` for all `i < j`). -/
theorem c7_buckets_sorted_by_address (changes : List ResourceChange) :
    List.Sorted detailLe (analyzeResourceChanges changes).create ∧
    List.Sorted detailLe (analyzeResourceChanges changes).update ∧
    List.Sorted detailLe (analyzeResourceChanges changes).delete ∧
    List.Sorted detailLe (analyzeResourceChanges changes).replace := by
  refine ⟨?_, ?_, ?_, ?_⟩ <;> exact List.sorted_insertionSort detailLe _

/-- Change used by the C2 counterexample: both `vpc_id` and `name`
change, and the differ iterates `vpc_id` before `name` (one of the
iteration orders Go's unordered map may produce). -/
def c2CexChange : Change :=
  { actions := ["create", "delete"],
    before := Value.obj [("vpc_id", Value.str ("a")), ("name", Value.str ("x"))],
    after := Value.obj [("vpc_id", Value.str ("b")), ("name", Value.str ("y"))] }

/-- C2 counterexample: with `name` and `vpc_id` both changed, the
replacement reason names `vpc_id` (the first match in diff-list order),
not `name` as priority-list order would demand. -/
theorem c2_counterexample_not_priority_order :
    determineReplaceReason c2CexChange =
      "Attribute \x27vpc_id\x27 changed from \x27a\x27 to \x27b\x27 (forces replacement)" ∧
    determineReplaceReason c2CexChange ≠
      "Attribute \x27name\x27 changed from \x27x\x27 to \x27y\x27 (forces replacement)" := by
  constructor
  · rfl
  · decide

/-- C2 (amended): the replacement reason names the first entry of the
diff list (in the differ's key-iteration order, not priority-list order)
whose key belongs to the priority list, formatted as
`Attribute '<attr>' changed from '<before>' to '<after>' (forces
replacement)`; with no such entry it is the generic multiple-changes
message when the diff is non-empty, and the configuration message when
the diff is empty. -/
theorem c2_replace_reason_amended :
    (∀ (change : Change) (pre post : List AttributeChange) (ac : AttributeChange),
      analyzeAttributeChanges change = pre ++ ac :: post →
      (∀ x ∈ pre, List.any forceReplaceAttrs (fun f => x.attr == f) = false) →
      List.any forceReplaceAttrs (fun f => ac.attr == f) = true →
      determineReplaceReason change =
        "Attribute \x27" ++ ac.attr ++ "\x27 changed from \x27" ++ goString ac.before ++
          "\x27 to \x27" ++ goString ac.after ++ "\x27 (forces replacement)") ∧
    (∀ change : Change,
      (∀ x ∈ analyzeAttributeChanges change,
        List.any forceReplaceAttrs (fun f => x.attr == f) = false) →
      analyzeAttributeChanges change ≠ [] →
      determineReplaceReason change = "Multiple attribute changes require replacement") ∧
    (∀ change : Change, analyzeAttributeChanges change = [] →
      determineReplaceReason change = "Resource configuration requires replacement") := by
  refine ⟨?_, ?_, ?_⟩
  · intro change pre post ac hsplit hpre hac
    unfold determineReplaceReason
    simp only [hsplit, findForceChange_first hpre hac]
  · intro change hall hne
    unfold determineReplaceReason
    simp only [findForceChange_eq_none hall]
    rw [if_pos (List.length_pos.mpr hne)]
  · exact fun change h => determineReplaceReason_of_empty h

/-- Change used by the C2 witness: a single priority attribute changes. -/
def c2WitnessChange : Change :=
  { actions := ["create", "delete"],
    before := Value.obj [("name", Value.str ("x"))],
    after := Value.obj [("name", Value.str ("y"))] }

/-- Witness for C2: the lone changed priority attribute `name` is
reported with its before/after values. -/
theorem c2_replace_reason_amended_witness :
    determineReplaceReason c2WitnessChange =
      "Attribute \x27name\x27 changed from \x27x\x27 to \x27y\x27 (forces replacement)" :=
  c2_replace_reason_amended.1 c2WitnessChange [] []
    ({ attr := "name", before := Value.str ("x"), after := Value.str ("y"),
       isNew := false, isRemoved := false })
    rfl (fun x hx => absurd hx (List.not_mem_nil x)) rfl

/-- C5: the deletion reason is the fixed fallback sentence when `before`
is not a mapping or carries none of the identifier attributes, and is
otherwise `Resource with <comma-joined identifiers>`; it is never empty;
and an `actions = [delete]` change lands in the Delete bucket with that
reason as its force reason. -/
theorem c5_delete_reason :
    (∀ change : Change, determineDeleteReason change ≠ "") ∧
    (∀ change : Change, asObj change.before = none →
      determineDeleteReason change = "Resource marked for deletion") ∧
    (∀ (change : Change) (bm : List (String × Value)),
      asObj change.before = some bm →
      (deleteIdentifiers bm = [] →
        determineDeleteReason change = "Resource marked for deletion") ∧
      (deleteIdentifiers bm ≠ [] →
        determineDeleteReason change =
          "Resource with " ++ String.intercalate (", ") (deleteIdentifiers bm))) ∧
    (∀ c : ResourceChange, c.change.actions = ["delete"] →
      analyzeResourceChanges [c] =
        { create := [], update := [],
          delete := [{ address := c.address, changes := analyzeAttributeChanges c.change,
                       forceReason := determineDeleteReason c.change }],
          replace := [] }) := by
  refine ⟨?_, ?_, ?_, ?_⟩
  · intro change
    unfold determineDeleteReason
    rcases hb : asObj change.before with _ | bm
    · simp only [hb]
      decide
    · simp only [hb]
      by_cases hlen : (deleteIdentifiers bm).length > 0
      · rw [if_pos hlen]
        exact append_ne_empty_left _ _ (by decide)
      · rw [if_neg hlen]
        decide
  · intro change hb
    unfold determineDeleteReason
    simp only [hb]
  · intro change bm hb
    constructor
    · intro hid
      unfold determineDeleteReason
      simp only [hb, hid]
      rfl
    · intro hid
      unfold determineDeleteReason
      simp only [hb]
      rw [if_pos (List.length_pos.mpr hid)]
  · intro c hacts
    have h1 : containsAction c.change.actions ("create") = false := by rw [hacts]; rfl
    have h2 : containsAction c.change.actions ("update") = false := by rw [hacts]; rfl
    have h3 : containsAction c.change.actions ("delete") = true := by rw [hacts]; rfl
    unfold analyzeResourceChanges
    simp only [List.foldl]
    unfold classifyStep
    simp [h1, h2, h3, sortResourceDetails]

/-- Resource change used by the C5 witness: a deletion whose `before`
names the resource. -/
def c5WitnessChange : ResourceChange :=
  { address := "aws_db_instance.legacy",
    change := { actions := ["delete"],
                before := Value.obj [("name", Value.str ("legacydb")), ("id", Value.null)],
                after := Value.null } }

/-- Witness for C5: the deletion lands in the Delete bucket carrying
`Resource with name: legacydb` (the null `id` is not collected). -/
theorem c5_delete_reason_witness :
    analyzeResourceChanges [c5WitnessChange] =
      { create := [], update := [],
        delete := [{ address := c5WitnessChange.address,
                     changes := analyzeAttributeChanges c5WitnessChange.change,
                     forceReason := determineDeleteReason c5WitnessChange.change }],
        replace := [] } ∧
    determineDeleteReason c5WitnessChange.change = "Resource with name: legacydb" :=
  ⟨c5_delete_reason.2.2.2 c5WitnessChange rfl, rfl⟩

/-- C6: the value formatter maps null to `(null)`, the empty string to
`(empty)`, non-empty strings to their quoted form, sequences to `[]` or
`[<n> items]`, mappings to the empty or `<n> keys` braced form, and
everything else (booleans, numbers) to its default `%v` rendering. -/
theorem c6_format_attribute_value :
    formatAttributeValue Value.null = "(null)" ∧
    formatAttributeValue (Value.str ("")) = "(empty)" ∧
    (∀ s : String, s ≠ "" →
      formatAttributeValue (Value.str s) = "\"" ++ s ++ "\"") ∧
    formatAttributeValue (Value.arr []) = "[]" ∧
    (∀ elems : List Value, elems ≠ [] →
      formatAttributeValue (Value.arr elems) = "[" ++ toString elems.length ++ " items]") ∧
    formatAttributeValue (Value.obj []) = "\x7b\x7d" ∧
    (∀ fields : List (String × Value), fields ≠ [] →
      formatAttributeValue (Value.obj fields) =
        "\x7b" ++ toString fields.length ++ " keys\x7d") ∧
    (∀ b : Bool, formatAttributeValue (Value.bool b) = goString (Value.bool b)) ∧
    (∀ n : Int, formatAttributeValue (Value.num n) = goString (Value.num n)) := by
  refine ⟨rfl, rfl, ?_, rfl, ?_, rfl, ?_, fun b => rfl, fun n => rfl⟩
  · intro s hs
    have hbe : (s == "") = false := beq_eq_false_iff_ne.mpr hs
    simp [formatAttributeValue, hbe]
  · intro elems he
    have hlen : (elems.length == 0) = false :=
      beq_eq_false_iff_ne.mpr (fun h => he (List.length_eq_zero.mp h))
    simp [formatAttributeValue, hlen]
  · intro fields hf
    have hlen : (fields.length == 0) = false :=
      beq_eq_false_iff_ne.mpr (fun h => hf (List.length_eq_zero.mp h))
    simp [formatAttributeValue, hlen]

/-- Witness for C6: a non-empty string, sequence and mapping formatted
concretely. -/
theorem c6_format_attribute_value_witness :
    formatAttributeValue (Value.str ("ok")) = "\"ok\"" ∧
    formatAttributeValue (Value.arr [Value.null, Value.bool true]) = "[2 items]" ∧
    formatAttributeValue (Value.obj [("a", Value.null)]) = "\x7b1 keys\x7d" :=
  ⟨c6_format_attribute_value.2.2.1 ("ok") (by decide),
   c6_format_attribute_value.2.2.2.2.1 ([Value.null, Value.bool true])
     (List.cons_ne_nil _ _),
   c6_format_attribute_value.2.2.2.2.2.2.1 ([("a", Value.null)])
     (List.cons_ne_nil _ _)⟩

/-- C8: when every bucket of the classified summary is empty, the
single-plan render is exactly the header followed by the fixed
no-changes sentence (the characters are byte-for-byte those of the
literals in `main.go`). -/
theorem c8_render_no_changes (plan : TerraformPlan)
    (h1 : (analyzeResourceChanges plan.resourceChanges).create = [])
    (h2 : (analyzeResourceChanges plan.resourceChanges).update = [])
    (h3 : (analyzeResourceChanges plan.resourceChanges).delete = [])
    (h4 : (analyzeResourceChanges plan.resourceChanges).replace = []) :
    generateMarkdownComment plan =
      "## ðŸ“‹ Terraform Plan Summary\n\n" ++
        "âœ… **No changes detected** - Infrastructure is up to date!\n\n" := by
  unfold generateMarkdownComment
  simp only [h1, h2, h3, h4, List.length_nil]
  rfl

/-- Plan used by the C8 witness: no resource changes at all. -/
def c8WitnessPlan : TerraformPlan :=
  { formatVersion := "1.2", terraformVersion := "1.5.0", resourceChanges := [] }

/-- Witness for C8: the empty plan renders to exactly the header plus the
no-changes sentence. -/
theorem c8_render_no_changes_witness :
    generateMarkdownComment c8WitnessPlan =
      "## ðŸ“‹ Terraform Plan Summary\n\n" ++
        "âœ… **No changes detected** - Infrastructure is up to date!\n\n" :=
  c8_render_no_changes c8WitnessPlan rfl rfl rfl rfl

/-- A plan with one updated resource whose `before`/`after` maps each
hold the two attributes `ami` and `cpu`; this representation iterates
`ami` first.  `c9CexPlanB` carries the same maps (identical bindings,
see `c9CexPlans_same_bindings`) in the other iteration order — both
orders are ones Go's randomized map iteration may produce on the same
decoded plan. -/
def c9CexPlanA : TerraformPlan :=
  { formatVersion := "1.2", terraformVersion := "1.5.0",
    resourceChanges :=
      [{ address := "aws_instance.web",
         change := { actions := ["update"],
                     before := Value.obj [("ami", Value.str ("a1")), ("cpu", Value.str ("2"))],
                     after := Value.obj [("ami", Value.str ("a2")), ("cpu", Value.str ("4"))] } }] }

/-- The same decoded plan as `c9CexPlanA` up to map key-iteration order:
every key looks up to the same value on both sides. -/
def c9CexPlanB : TerraformPlan :=
  { formatVersion := "1.2", terraformVersion := "1.5.0",
    resourceChanges :=
      [{ address := "aws_instance.web",
         change := { actions := ["update"],
                     before := Value.obj [("cpu", Value.str ("2")), ("ami", Value.str ("a1"))],
                     after := Value.obj [("cpu", Value.str ("4")), ("ami", Value.str ("a2"))] } }] }

/-- The attribute maps of `c9CexPlanA` and `c9CexPlanB` have identical
bindings: as Go maps they are the same values, differing only in the
order the embedding iterates their keys. -/
theorem c9CexPlans_same_bindings :
    (∀ key, lookupKey ([("ami", Value.str ("a1")), ("cpu", Value.str ("2"))]) key =
        lookupKey ([("cpu", Value.str ("2")), ("ami", Value.str ("a1"))]) key) ∧
    (∀ key, lookupKey ([("ami", Value.str ("a2")), ("cpu", Value.str ("4"))]) key =
        lookupKey ([("cpu", Value.str ("4")), ("ami", Value.str ("a2"))]) key) := by
  constructor <;>
    · intro key
      by_cases h1 : ("ami" == key) = true <;> by_cases h2 : ("cpu" == key) = true
      · exact absurd ((beq_iff_eq.mp h1).trans (beq_iff_eq.mp h2).symm) (by decide)
      all_goals simp [lookupKey, h1, h2]

set_option maxRecDepth 40000 in
/-- C9 counterexample: the renderer applied to the same plan under two
key-iteration orders that Go's randomized map iteration may both
produce (`c9CexPlanA` versus `c9CexPlanB`, identical bindings by
`c9CexPlans_same_bindings`) yields different bytes — the attribute
bullets of the Update section come out as `ami`,`cpu` in one run and
`cpu`,`ami` in the other, so two renders of the same plan need not be
byte-identical. -/
theorem c9_counterexample_render_order_dependent :
    generateMarkdownComment c9CexPlanA ≠ generateMarkdownComment c9CexPlanB := by
  decide

/-- C9 (amended): the single-plan renderer is a function of the
classified summary and the Terraform version string alone — plans with
equal summaries and equal version strings render to byte-identical
Markdown (in particular, rendering downstream of a fixed
`ResourceSummary` is deterministic, and the output depends on no other
state such as `format_version`); byte-identity of two renders of the
same plan, however, holds only up to the differ's key-iteration order,
which Go randomizes. -/
theorem c9_render_depends_only_on_summary :
    ∀ p q : TerraformPlan,
      analyzeResourceChanges p.resourceChanges = analyzeResourceChanges q.resourceChanges →
      p.terraformVersion = q.terraformVersion →
      generateMarkdownComment p = generateMarkdownComment q := by
  intro p q h1 h2
  unfold generateMarkdownComment
  rw [h1, h2]

/-- Plan used by the C9 witness: one created resource. -/
def c9WitnessPlanA : TerraformPlan :=
  { formatVersion := "1.0", terraformVersion := "1.5.0",
    resourceChanges :=
      [{ address := "aws_instance.a",
         change := { actions := ["create"], before := Value.null,
                     after := Value.obj [("name", Value.str ("x"))] } }] }

/-- Same plan as `c9WitnessPlanA` except for `format_version`. -/
def c9WitnessPlanB : TerraformPlan :=
  { formatVersion := "0.9", terraformVersion := "1.5.0",
    resourceChanges :=
      [{ address := "aws_instance.a",
         change := { actions := ["create"], before := Value.null,
                     after := Value.obj [("name", Value.str ("x"))] } }] }

/-- Witness for C9: two plans differing only in `format_version` render
identically. -/
theorem c9_render_depends_only_on_summary_witness :
    generateMarkdownComment c9WitnessPlanA = generateMarkdownComment c9WitnessPlanB :=
  c9_render_depends_only_on_summary c9WitnessPlanA c9WitnessPlanB rfl rfl

/-- C10: when `before` and `after` differ only at skip-set keys, the
recomputed diff is empty and the replacement reason is the generic
configuration sentence; and the priority list is disjoint from the skip
set, so a skipped attribute can never determine a replacement reason. -/
theorem c10_skip_only_diffs_generic_replace_reason :
    (∀ (change : Change) (bm am : List (String × Value)),
      asObj change.before = some bm → asObj change.after = some am →
      (∀ key, shouldSkipAttribute key = false →
        ((lookupKey bm key = none ∧ lookupKey am key = none) ∨
         (∃ bv av, lookupKey bm key = some bv ∧ lookupKey am key = some av ∧
            deepEqual bv av = true))) →
      analyzeAttributeChanges change = [] ∧
      determineReplaceReason change = "Resource configuration requires replacement") ∧
    (∀ a ∈ forceReplaceAttrs, shouldSkipAttribute a = false) := by
  constructor
  · intro change bm am hb ha hkeys
    have hempty : analyzeAttributeChanges change = [] := by
      unfold analyzeAttributeChanges
      simp only [hb, ha]
      apply List.filterMap_eq_nil_iff.mpr
      intro key _
      by_cases hskip : shouldSkipAttribute key = true
      · unfold attrRecordFor
        rw [if_pos hskip]
      · have hskip2 : shouldSkipAttribute key = false := Bool.eq_false_iff.mpr hskip
        rcases hkeys key hskip2 with ⟨hbn, han⟩ | ⟨bv, av, hbv, hav, hde⟩
        · unfold attrRecordFor
          rw [if_neg (by simp [hskip2]), hbn, han]
        · unfold attrRecordFor
          rw [if_neg (by simp [hskip2]), hbv, hav]
          simp only [hde, if_true]
    exact ⟨hempty, determineReplaceReason_of_empty hempty⟩
  · decide

/-- Change used by the C10 witness: only the skipped `id` attribute
differs. -/
def c10WitnessChange : Change :=
  { actions := ["create", "delete"],
    before := Value.obj [("id", Value.str ("old"))],
    after := Value.obj [("id", Value.str ("new"))] }

/-- Witness for C10: an `id`-only difference yields an empty diff and the
generic configuration reason. -/
theorem c10_skip_only_diffs_generic_replace_reason_witness :
    analyzeAttributeChanges c10WitnessChange = [] ∧
    determineReplaceReason c10WitnessChange = "Resource configuration requires replacement" :=
  c10_skip_only_diffs_generic_replace_reason.1 c10WitnessChange
    ([("id", Value.str ("old"))]) ([("id", Value.str ("new"))]) rfl rfl
    (fun key hskip => by
      have hne : ("id" == key) = false := by
        cases hid : ("id" == key)
        · rfl
        · exfalso
          have hkey : key = "id" := (beq_iff_eq.mp hid).symm
          rw [hkey] at hskip
          exact absurd hskip (by decide)
      exact Or.inl ⟨by simp [lookupKey, hne], by simp [lookupKey, hne]⟩)

end Tfplan
